import Mathlib

/-!
Verification of `mcbdd_module2.py` (ChEMBL drug-target / UniProt-keyword
pipeline).  The Python source is shallowly embedded: each Python function
becomes a Lean function over explicit data models of the JSON documents and
upstream records it reads; Python exceptions become `Except`, and the
side-effecting orchestrator `main` becomes a pure function producing an
event trace.
-/

namespace Mcbdd

/-! ## Python string primitives

The source uses `str.strip`, `str.lower`, `str.startswith`, the `in`
substring test, `str.split(sep)[0]` and `", ".join(...)`.  Each is modelled
on the character list underlying a Lean `String`. -/

/-- Model of Python `str.strip` on a character list: drop whitespace from
the front, then (via reverse) from the back. -/
def stripList (l : List Char) : List Char :=
  ((l.dropWhile Char.isWhitespace).reverse.dropWhile Char.isWhitespace).reverse

/-- Model of Python `str.strip`. -/
def pyStrip (s : String) : String := ⟨stripList s.data⟩

/-- Model of Python `str.lower` (ASCII case folding suffices here). -/
def pyLower (s : String) : String := ⟨s.data.map Char.toLower⟩

/-- Model of Python `str.startswith`. -/
def pyStartswith (s pre : String) : Bool := pre.data.isPrefixOf s.data

/-- Substring test on character lists, model of the Python `in` operator
restricted to strings. -/
def listContains (pat : List Char) : List Char → Bool
  | [] => pat.isEmpty
  | c :: t => pat.isPrefixOf (c :: t) || listContains pat t

/-- Model of the Python substring test `pat in s`. -/
def strContains (s pat : String) : Bool := listContains pat.data s.data

/-- Model of Python `s.split(sep)[0]` for a non-empty separator: the part
of `s` before the first occurrence of `sep` (the whole of `s` when `sep`
does not occur, matching Python, whose split always has a first element). -/
def beforeFirstAux (sep : List Char) : List Char → List Char
  | [] => []
  | c :: rest => if sep.isPrefixOf (c :: rest) then [] else c :: beforeFirstAux sep rest

/-- Model of Python `s.split(sep)[0]`. -/
def beforeFirst (s sep : String) : String := ⟨beforeFirstAux sep.data s.data⟩

/-- Model of Python `s[n:]` (drop the first `n` characters). -/
def pyDropChars (s : String) (n : Nat) : String := ⟨s.data.drop n⟩

/-- Model of Python `sep.join(xs)`. -/
def pyJoin (sep : String) : List String → String
  | [] => ""
  | [x] => x
  | x :: y :: t => x ++ sep ++ pyJoin sep (y :: t)

/-- Insertion into a Python `set`, modelled as a duplicate-free list kept in
first-insertion order: `set.add` is a no-op on an element already present. -/
def addKw (l : List String) (k : String) : List String :=
  if k ∈ l then l else l ++ [k]

/-- Folding `addKw` over a list: the deduplicated (first occurrence kept)
version of `l`, used to state what a Python set accumulates. -/
def dedupFirst (l : List String) : List String := l.foldl addKw []

/-- Decidable equality of outcomes, so that witnesses can be checked by
evaluation. -/
instance {e a : Type} [DecidableEq e] [DecidableEq a] : DecidableEq (Except e a) :=
  fun x y =>
    match x, y with
    | .ok v, .ok w =>
      if h : v = w then .isTrue (by rw [h]) else .isFalse (fun he => h (Except.ok.inj he))
    | .ok _, .error _ => .isFalse (fun he => Except.noConfusion he)
    | .error _, .ok _ => .isFalse (fun he => Except.noConfusion he)
    | .error v, .error w =>
      if h : v = w then .isTrue (by rw [h]) else .isFalse (fun he => h (Except.error.inj he))

/-! ## The UniProt protein document (input of `get_uniprot_keywords`)

The JSON document returned by the EBI proteins API, modelled at the
granularity the source accesses it.  `Option` marks a key that may be
absent; accesses the source performs *without* a presence check are the
places where a `KeyError`/`IndexError`/`TypeError` can escape to the
generic handler (returned as `Except.error`). -/

/-- One entry of the `keywords` section; the source reads `kw["name"]` only
after checking `"name" in kw` (line 53). -/
structure UKeyword where
  name : Option String
deriving DecidableEq

/-- The `protein.recommendedName.fullName` object; the source checks the
presence of `recommendedName` and `fullName` (line 59) but reads
`["value"]` unchecked (line 60). -/
structure FullNameObj where
  value : Option String
deriving DecidableEq

/-- The `protein.recommendedName` object. -/
structure RecNameObj where
  fullName : Option FullNameObj
deriving DecidableEq

/-- The `protein` section. -/
structure ProteinObj where
  recommendedName : Option RecNameObj
deriving DecidableEq

/-- One entry of `dbReferences`: the source reads `ref["type"]` unchecked
(line 73) and `ref.get("properties", {}).get("term", "")` with defaults
(line 74), so only the former can raise. -/
structure DbReference where
  refType : Option String
  propertiesTerm : Option String
deriving DecidableEq

/-- One entry of a `comments[].text` array; the source reads `["value"]`
unchecked (line 82). -/
structure CommentText where
  value : Option String
deriving DecidableEq

/-- One entry of `comments`: the source reads `comment["type"]` unchecked
(line 81) and `comment["text"][0]` unchecked (line 82), so a missing `text`
key or an empty `text` array raises. -/
structure CommentEntry where
  commentType : Option String
  text : Option (List CommentText)
deriving DecidableEq

/-- The protein document: the four optional top-level sections the source
looks at (lines 51, 57, 71, 79). -/
structure Document where
  keywords : Option (List UKeyword)
  protein : Option ProteinObj
  dbReferences : Option (List DbReference)
  comments : Option (List CommentEntry)
deriving DecidableEq

/-! ## The four extraction strategies (lines 48-85)

Strategies run sequentially over one shared Python set (`keywords`,
line 48).  Strategy 1 cannot raise; strategies 2-4 contain unchecked
accesses, so they live in `Except Unit`: an `error` is a Python exception
escaping to the `except Exception` handler (line 98). -/

/-- Strategy 1 (lines 51-54): names from the standard `keywords` section. -/
def strat1 (doc : Document) (acc : List String) : List String :=
  match doc.keywords with
  | none => acc
  | some kws =>
    kws.foldl (fun a kw => match kw.name with
      | some n => addKw a n
      | none => a) acc

/-- The four description cues of strategy 2 (lines 61-68), in source
order. -/
def strat2Tags (descLower : String) : List String :=
  (if strContains descLower "receptor" then ["Receptor"] else []) ++
  (if strContains descLower "enzyme" then ["Enzyme"] else []) ++
  (if strContains descLower "channel" then ["Channel"] else []) ++
  (if strContains descLower "transporter" then ["Transporter"] else [])

/-- Strategy 2 (lines 57-68): description heuristics.  A present
`fullName` object lacking `value` raises (unchecked `["value"]`,
line 60). -/
def strat2 (doc : Document) (acc : List String) : Except Unit (List String) :=
  match doc.protein with
  | none => .ok acc
  | some p =>
    match p.recommendedName with
    | none => .ok acc
    | some rn =>
      match rn.fullName with
      | none => .ok acc
      | some fn =>
        match fn.value with
        | none => .error ()
        | some v => .ok ((strat2Tags (pyLower v)).foldl addKw acc)

/-- Strategy 3 (lines 71-76): GO molecular-function terms.  A reference
entry lacking `type` raises (unchecked `ref["type"]`, line 73). -/
def strat3 (doc : Document) (acc : List String) : Except Unit (List String) :=
  match doc.dbReferences with
  | none => .ok acc
  | some refs =>
    refs.foldlM (fun a ref =>
      match ref.refType with
      | none => .error ()
      | some t =>
        if t = "GO" then
          let goTerm := ref.propertiesTerm.getD ""
          if pyStartswith goTerm "F:" then
            .ok (addKw a (pyStrip (beforeFirst (pyDropChars goTerm 2) ";")))
          else .ok a
        else .ok a) acc

/-- Strategy 4 (lines 79-85): protein families from `similarity` comments.
A comment lacking `type`, or a `similarity` comment lacking `text`, with an
empty `text` array, or whose first text entry lacks `value`, raises
(unchecked accesses on lines 81-82). -/
def strat4 (doc : Document) (acc : List String) : Except Unit (List String) :=
  match doc.comments with
  | none => .ok acc
  | some cs =>
    cs.foldlM (fun a c =>
      match c.commentType with
      | none => .error ()
      | some t =>
        if t = "similarity" then
          match c.text with
          | none => .error ()
          | some [] => .error ()
          | some (t0 :: _) =>
            match t0.value with
            | none => .error ()
            | some v =>
              let lower := pyLower v
              if strContains lower "belongs to the" || strContains lower "protein family" then
                .ok (addKw a (beforeFirst v "."))
              else .ok a
        else .ok a) acc

/-- The whole collection pass of `get_uniprot_keywords` over a retrieved
document (lines 48-85): the four strategies in order over one shared set;
an exception anywhere aborts the pass. -/
def collectKeywords (doc : Document) : Except Unit (List String) := do
  let a1 := strat1 doc []
  let a2 ← strat2 doc a1
  let a3 ← strat3 doc a2
  strat4 doc a3

/-- Post-processing (line 88): `[k.strip() for k in keywords if k and
k.strip()]` - keep the raw strings that are non-empty and strip to
non-empty, and map `strip` over them. -/
def cleanKw (l : List String) : List String :=
  (l.filter fun k => k != "" && pyStrip k != "").map pyStrip

/-! ## `get_uniprot_keywords` (lines 40-101) -/

/-- Outcome of `requests.get` plus `raise_for_status` plus `json()` for one
accession: a parsed document, an HTTP error status (from
`raise_for_status`), or a transport-level `RequestException` (timeout,
connection reset, DNS). -/
inductive FetchResult where
  | success (doc : Document)
  | httpError (status : Nat)
  | requestError
deriving DecidableEq

/-- A Python exception reaching the handler chain of
`get_uniprot_keywords`: an `HTTPError` carrying the response status, any
other `RequestException`, or any other exception (from parsing or
extraction). -/
inductive PyExn where
  | httpError (status : Nat)
  | requestExn
  | other
deriving DecidableEq

/-- The `try` body of `get_uniprot_keywords` (lines 44-90): fetch, run the
four strategies, clean, and fall back to `["NO_KEYWORDS_FOUND"]` when the
cleaned union is empty (line 90). -/
def kwAttempt (f : FetchResult) : Except PyExn (List String) :=
  match f with
  | .httpError s => .error (.httpError s)
  | .requestError => .error .requestExn
  | .success doc =>
    match collectKeywords doc with
    | .error _ => .error .other
    | .ok raw =>
      let cleaned := cleanKw raw
      .ok (if cleaned.isEmpty then ["NO_KEYWORDS_FOUND"] else cleaned)

/-- The `except` chain of `get_uniprot_keywords` (lines 92-99): `HTTPError`
first (404 checked against the response status), then `RequestException`,
then any `Exception`. -/
def kwHandlers : PyExn → List String
  | .httpError s =>
    if s = 404 then ["UNIPROT_ENTRY_NOT_FOUND"] else ["HTTP_ERROR_" ++ Nat.repr s]
  | .requestExn => ["REQUEST_ERROR"]
  | .other => ["PROCESSING_ERROR"]

/-- `get_uniprot_keywords` (lines 40-101): the `try` body with every
exception converted to its marker list. -/
def get_uniprot_keywords (f : FetchResult) : List String :=
  match kwAttempt f with
  | .ok r => r
  | .error e => kwHandlers e

/-! ## The ChEMBL knowledge source (inputs of `get_approved_drugs` and
`get_drug_targets`) -/

/-- A JSON field value as the source discriminates it: absent-or-null,
an integer, or a string.  Used for `first_approval`, whose truthiness and
`int(...)` parse the cohort filter depends on (line 129). -/
inductive FieldVal where
  | none
  | int (n : Int)
  | str (s : String)
deriving DecidableEq

/-- Python truthiness of a `FieldVal`: `None` and absent are falsy, `0` is
falsy, `""` is falsy. -/
def pyTruthy : FieldVal → Bool
  | .none => false
  | .int n => n != 0
  | .str s => s != ""

/-- Whether every character is a decimal digit and the list is non-empty
(the shape Python `int(str)` accepts after stripping sign and space;
underscore digit grouping is not modelled). -/
def allDigits (l : List Char) : Bool := !l.isEmpty && l.all Char.isDigit

/-- Decimal value of a digit run. -/
def digitsVal (l : List Char) : Nat := l.foldl (fun a c => a * 10 + (c.toNat - 48)) 0

/-- Model of Python `int(s)` for a string: surrounding whitespace ignored,
optional sign, then a non-empty digit run; anything else is a `ValueError`
(`Option.none`). -/
def pyParseIntStr (s : String) : Option Int :=
  match stripList s.data with
  | '-' :: rest => if allDigits rest then some (-(digitsVal rest : Int)) else none
  | '+' :: rest => if allDigits rest then some ((digitsVal rest : Int)) else none
  | l => if allDigits l then some ((digitsVal l : Int)) else none

/-- Model of Python `int(v)` on a field value: an integer passes through, a
string is parsed, `None`/absent raises `TypeError` (`Option.none`; the
source catches both `ValueError` and `TypeError`, line 131). -/
def pyIntF : FieldVal → Option Int
  | .int n => some n
  | .str s => pyParseIntStr s
  | .none => none

/-- A ChEMBL drug record, at the granularity `main` and `get_drug_targets`
read it: `pref_name` may be absent (read with default `"Unknown"`,
line 148), `first_approval` may be absent, null, numeric or textual. -/
structure Drug where
  molecule_chembl_id : String
  pref_name : Option String
  first_approval : FieldVal
deriving DecidableEq

/-- One mechanism record: `target_chembl_id` may be null (the source
tests its truthiness, line 27). -/
structure Mech where
  target_chembl_id : Option String
deriving DecidableEq

/-- One target component: `accession` may be absent (the source checks
`"accession" in component and component["accession"]`, line 31). -/
structure TargetComponent where
  accession : Option String
deriving DecidableEq

/-- One target record, restricted to the `target_components` projection the
source requests (line 28). -/
structure TargetRec where
  target_components : List TargetComponent
deriving DecidableEq

/-- The upstream data reachable from one drug in `get_drug_targets`: its
mechanism list and, per target ChEMBL id, the matching target records. -/
structure DrugEnv where
  mechs : List Mech
  lookup : String → List TargetRec

/-- The innermost step of the walk (lines 31-32): a component accession is
added to the set when present and truthy (non-empty). -/
def addAccession (b : List String) : Option String → List String
  | none => b
  | some a0 => if a0 = "" then b else addKw b a0

/-- One target component (line 30-32). -/
def addComp (b : List String) (comp : TargetComponent) : List String :=
  addAccession b comp.accession

/-- One target record: all its components in order (lines 29-32). -/
def addTargetRec (a : List String) (tr : TargetRec) : List String :=
  tr.target_components.foldl addComp a

/-- One mechanism (lines 26-32): skipped unless its target id is truthy;
otherwise all matching target records are walked. -/
def addTid (env : DrugEnv) (acc : List String) : Option String → List String
  | none => acc
  | some tid =>
    if tid = "" then acc else (env.lookup tid).foldl addTargetRec acc

/-- One mechanism record (line 26-27). -/
def addMech (env : DrugEnv) (acc : List String) (mech : Mech) : List String :=
  addTid env acc mech.target_chembl_id

/-- The accession-set walk of `get_drug_targets` (lines 24-32): over all
mechanisms with a truthy target id, over all matching target records, over
all components, add each present non-empty accession to the set. -/
def drugTargetSet (env : DrugEnv) : List String :=
  env.mechs.foldl (addMech env) []

/-- `get_drug_targets` (lines 19-37): the walk, then the return filter
`[t for t in targets if t is not None and not t.startswith("ENSG")]`
(line 34; the `None` test is vacuous, the truthiness check at insertion
already excluded `None`).  The outer `except` turns any exception during
the walk into `[]` (lines 35-37). -/
def get_drug_targets (o : Except Unit DrugEnv) : List String :=
  match o with
  | .error _ => []
  | .ok env => (drugTargetSet env).filter fun t => !pyStartswith t "ENSG"

/-! ## `get_approved_drugs` (lines 8-16) and the cohort filter
(lines 126-132)

The `order_by("first_approval", "pref_name")` clause is executed by the
upstream ChEMBL service, an external collaborator; the embedding therefore
takes the service response as input and the claims about ordering assume
the response honours the requested order (stated as a `List.Pairwise`
hypothesis over `apiLe` below). -/

/-- `get_approved_drugs`: returns the upstream response list, or `[]` when
the upstream query raised (lines 14-16 log and return `[]`). -/
def get_approved_drugs (o : Except Unit (List Drug)) : List Drug :=
  match o with
  | .error _ => []
  | .ok drugs => drugs

/-- Lexicographic order on character lists, used to model the upstream
name ordering. -/
def leChars : List Char → List Char → Bool
  | [], _ => true
  | _ :: _, [] => false
  | a :: as, b :: bs => if a = b then leChars as bs else decide (a < b)

/-- Order on optional names with null first, used to model the upstream
`pref_name` ordering. -/
def nameLe : Option String → Option String → Bool
  | none, _ => true
  | some _, none => false
  | some s, some t => leChars s.data t.data

/-- Order on `first_approval` values as the upstream sorts them: null
first, then integers by value, then strings lexicographically. -/
def fieldLe : FieldVal → FieldVal → Bool
  | .none, _ => true
  | .int _, .none => false
  | .int m, .int n => decide (m ≤ n)
  | .int _, .str _ => true
  | .str _, .none => false
  | .str _, .int _ => false
  | .str s, .str t => leChars s.data t.data

/-- The order the source requests with
`order_by("first_approval", "pref_name")` (line 12): by approval field,
ties by preferred name. -/
def apiLe (a b : Drug) : Bool :=
  if a.first_approval = b.first_approval then nameLe a.pref_name b.pref_name
  else fieldLe a.first_approval b.first_approval

/-- The cohort filter of `main` (line 129):
`drug.get("first_approval") and int(drug["first_approval"]) >= 2019`, with
`ValueError`/`TypeError` from the parse silently skipping the record
(lines 131-132). -/
def keepDrug (d : Drug) : Bool :=
  pyTruthy d.first_approval &&
    (match pyIntF d.first_approval with
     | some y => decide (2019 ≤ y)
     | none => false)

/-- The retained cohort `recent_drugs` (lines 126-132), in upstream
order. -/
def recentDrugs (ds : List Drug) : List Drug := ds.filter keepDrug

/-- First-approval year of a retained drug, for stating the cohort order
(every retained drug parses, so the default is never read). -/
def cohortYear (d : Drug) : Int := (pyIntF d.first_approval).getD 0

/-- The ordering the specification claims for the retained cohort: year
ascending, ties by preferred name ascending. -/
def cohortOrdered (a b : Drug) : Prop :=
  cohortYear a < cohortYear b ∨
    (cohortYear a = cohortYear b ∧ nameLe a.pref_name b.pref_name = true)

/-- Whether a field value is an integer or absent/null - the shape of the
ChEMBL `first_approval` column (the upstream source never returns a
textual year). -/
def intOrNone : FieldVal → Bool
  | .str _ => false
  | _ => true

/-! ## The orchestrator `main` (lines 104-187), as an event trace -/

/-- One accumulated row of the drug-target table (line 153): display name,
raw approval field, resolved target list. -/
structure Row where
  name : String
  year : FieldVal
  targets : List String
deriving DecidableEq

/-- The row `main` accumulates for a drug (lines 148-153). -/
def mkRow (d : Drug) (ts : List String) : Row :=
  ⟨d.pref_name.getD "Unknown", d.first_approval, ts⟩

/-- Observable events of one run of `main`, in program order: opening the
two output files, writing a header or data row, querying the drug cohort,
resolving one drug, one keyword lookup, the pacing sleep. -/
inductive Ev where
  | openFiles
  | writeDTHeader
  | writeTKHeader
  | fetchDrugs
  | fetchTargets (d : Drug)
  | writeDT (name : String) (year : FieldVal) (cell : String)
  | fetchKw (accession : String)
  | sleepEv
  | writeTK (accession : String) (cell : String)
deriving DecidableEq

/-- `get_uniprot_keywords` together with its event trace: the HTTP request,
then - on every exit path, success and each handler alike - the
`finally: sleep(0.2)` (lines 100-101). -/
def get_uniprot_keywords_run (accession : String) (f : FetchResult) :
    List String × List Ev :=
  match kwAttempt f with
  | .ok r => (r, [Ev.fetchKw accession] ++ [Ev.sleepEv])
  | .error e => (kwHandlers e, [Ev.fetchKw accession] ++ [Ev.sleepEv])

/-- The environment of one run of `main`: the upstream cohort query
outcome, the per-drug outcome of the `try` body around `get_drug_targets`
(`.ok ts` is the returned list - `get_drug_targets` itself never raises -
and `.error` models the defensive outer `except` of lines 157-159), and
the per-accession fetch outcome. -/
structure Env where
  db : Except Unit (List Drug)
  resolve : Drug → Except Unit (List String)
  fetch : String → FetchResult

/-- The body of one iteration of the target-resolution loop
(lines 147-159), as a function of the outcome of the `try` block: on
success append the row and add the targets to the global set; on a
per-drug exception log and `continue` - no row, no set update. -/
def targetStepR (acc : List Row × List String) (d : Drug) :
    Except Unit (List String) → List Row × List String
  | .ok ts => (acc.1 ++ [mkRow d ts], ts.foldl addKw acc.2)
  | .error _ => acc

/-- One step of the target-resolution loop (lines 146-159). -/
def targetStep (resolve : Drug → Except Unit (List String))
    (acc : List Row × List String) (d : Drug) : List Row × List String :=
  targetStepR acc d (resolve d)

/-- The target-resolution phase (lines 140-159): fold the per-drug step
over the cohort, starting from an empty row list and an empty global
accession set. -/
def targetPhase (resolve : Drug → Except Unit (List String)) (ds : List Drug) :
    List Row × List String :=
  ds.foldl (targetStep resolve) ([], [])

/-- The table-2 cell for one accession (line 175):
`", ".join(keywords) if keywords else "NO_KEYWORDS_FOUND"`. -/
def tkCell (kws : List String) : String :=
  if kws.isEmpty then "NO_KEYWORDS_FOUND" else pyJoin ", " kws

/-- The keyword-phase block for one accession (lines 171-175): the lookup
(with its internal trace, ending in the pacing sleep), then immediately the
table-2 row write. -/
def kwBlock (env : Env) (t : String) : List Ev :=
  let r := get_uniprot_keywords_run t (env.fetch t)
  r.2 ++ [Ev.writeTK t (tkCell r.1)]

/-- The table-1 write event for one accumulated row (lines 161-163):
name, raw approval field, comma-space-joined targets. -/
def rowEv (r : Row) : Ev := .writeDT r.name r.year (pyJoin ", " r.targets)

/-- The part of the trace of `main` after the fixed prologue: empty when
the cohort query yields nothing (line 121) or the filtered cohort is empty
(line 136); otherwise the target-resolution calls in cohort order, then all
table-1 row writes, then the streamed keyword blocks over the global
accession set. -/
def mainRest (env : Env) : List Ev :=
  if (get_approved_drugs env.db).isEmpty then []
  else if (recentDrugs (get_approved_drugs env.db)).isEmpty then []
  else
    (recentDrugs (get_approved_drugs env.db)).map Ev.fetchTargets
      ++ ((targetPhase env.resolve (recentDrugs (get_approved_drugs env.db))).1).map rowEv
      ++ ((targetPhase env.resolve (recentDrugs (get_approved_drugs env.db))).2).flatMap
          (kwBlock env)

/-- The full event trace of `main` (lines 104-187): open both files, write
both header rows (lines 107-115), query the cohort (line 119), then
`mainRest`. -/
def mainTrace (env : Env) : List Ev :=
  [Ev.openFiles, Ev.writeDTHeader, Ev.writeTKHeader, Ev.fetchDrugs] ++ mainRest env

/-- Projection of a trace to the table-1 data rows it writes. -/
def evDT : Ev → Option (String × FieldVal × String)
  | .writeDT n y c => some (n, y, c)
  | _ => none

/-- Table-1 data rows of a trace, in write order. -/
def dtRows (tr : List Ev) : List (String × FieldVal × String) := tr.filterMap evDT

/-- Projection of a trace to the keyword lookups it performs. -/
def evKwFetch : Ev → Option String
  | .fetchKw t => some t
  | _ => none

/-- Accessions looked up in a trace, in order. -/
def kwFetches (tr : List Ev) : List String := tr.filterMap evKwFetch

/-- Projection of a trace to the table-2 data rows it writes. -/
def evTK : Ev → Option String
  | .writeTK t _ => some t
  | _ => none

/-- Accessions of table-2 data rows of a trace, in write order. -/
def tkAccs (tr : List Ev) : List String := tr.filterMap evTK

/-- Projection of a trace to the per-drug target resolutions it performs. -/
def evTFetch : Ev → Option Drug
  | .fetchTargets d => some d
  | _ => none

/-- Drugs resolved in a trace, in processing order. -/
def tFetches (tr : List Ev) : List Drug := tr.filterMap evTFetch

/-- The target list an outcome contributes to the global set: the resolved
list on success, nothing on a per-drug exception. -/
def okT : Except Unit (List String) → List String
  | .ok ts => ts
  | .error _ => []

/-- The per-drug target list `main` effectively unions into the global
set. -/
def okTargets (resolve : Drug → Except Unit (List String)) (d : Drug) : List String :=
  okT (resolve d)

/-- The row an outcome contributes to the drug-target table: the (name,
year, targets) row on success, nothing on a per-drug exception. -/
def okRow (d : Drug) : Except Unit (List String) → Option Row
  | .ok ts => some (mkRow d ts)
  | .error _ => none

/-! ## Concrete inputs used by witnesses and counterexamples -/

/-- A document whose `dbReferences` holds an entry without a `type` key:
strategy 3 raises on it (line 73). -/
def docC1bad : Document := ⟨some [⟨some "Kinase"⟩], none, some [⟨none, none⟩], none⟩

/-- A document with three `keywords` entries: the literal marker string,
`"X"`, and `"X "` (trailing space).  The raw set is duplicate-free, but
stripping collapses the last two. -/
def docC2 : Document := ⟨some [⟨some "NO_KEYWORDS_FOUND"⟩, ⟨some "X"⟩, ⟨some "X "⟩], none, none, none⟩

/-- A well-formed document: one standard keyword plus one GO
molecular-function reference. -/
def docC9good : Document :=
  ⟨some [⟨some "Kinase"⟩], none, some [⟨some "GO", some "F:kinase activity"⟩], none⟩

/-- The same document with an additional `dbReferences` entry lacking
`type`: strategy 3 raises after strategy 1 has already collected a
keyword. -/
def docC9bad : Document :=
  ⟨some [⟨some "Kinase"⟩], none, some [⟨some "GO", some "F:kinase activity"⟩, ⟨none, none⟩], none⟩

/-- A document with a keyword and a `similarity` comment lacking the
`text` array: strategy 4 raises (line 82). -/
def docC9comment : Document :=
  ⟨some [⟨some "Kinase"⟩], none, none, some [⟨some "similarity", none⟩]⟩

/-- The empty protein document: every section absent. -/
def docEmpty : Document := ⟨none, none, none, none⟩

/-- Whether an event writes a data row of either output table. -/
def isRowWrite : Ev → Bool
  | .writeDT _ _ _ => true
  | .writeTK _ _ => true
  | _ => false

/-- Whether an event belongs to one of the two resolution phases: a
per-drug target resolution or a per-accession keyword lookup. -/
def isResolutionEv : Ev → Bool
  | .fetchTargets _ => true
  | .fetchKw _ => true
  | _ => false

/-- The all-or-nothing output discipline claimed for `main`: once any data
row of either table has been written, no resolution work of either phase
happens any more - equivalently, every data-row write comes after both
phases have finished. -/
def noResolutionAfterWrite : List Ev → Bool
  | [] => true
  | e :: t =>
    if isRowWrite e then t.all (fun x => !isResolutionEv x) && noResolutionAfterWrite t
    else noResolutionAfterWrite t

/-- One drug approved in 2020, used by the C3 counterexample run. -/
def drugC3 : Drug := ⟨"D1", some "A", .int 2020⟩

/-- A one-drug, one-target run whose keyword fetch succeeds with the empty
document. -/
def envC3 : Env := ⟨.ok [drugC3], fun _ => .ok ["P1"], fun _ => .success docEmpty⟩

/-- A drug whose per-drug processing raises. -/
def drugC4a : Drug := ⟨"D1", some "A", .int 2019⟩

/-- A drug whose per-drug processing succeeds with no targets. -/
def drugC4b : Drug := ⟨"D2", some "B", .int 2020⟩

/-- Per-drug outcomes for the C4 counterexample: the first drug raises,
the second resolves to an empty target list. -/
def resolveC4 : Drug → Except Unit (List String) :=
  fun d => if d.molecule_chembl_id = "D1" then .error () else .ok []

/-- A run whose upstream cohort query raises: `get_approved_drugs` fails
soft to `[]` and `main` exits right after the prologue. -/
def envC10 : Env := ⟨.error (), fun _ => .ok [], fun _ => .requestError⟩

/-- An upstream response in the order the source requests: null year
first, then years ascending, names breaking the 2020 tie. -/
def dsC5 : List Drug :=
  [⟨"D0", some "Z", FieldVal.none⟩, ⟨"D1", some "C", .int 2019⟩,
   ⟨"D2", some "B", .int 2020⟩, ⟨"D3", some "D", .int 2020⟩]

/-- A record whose approval year is the non-numeric string `"x"`. -/
def drugStrYear : Drug := ⟨"DX", some "X", .str "x"⟩

end Mcbdd

namespace Mcbdd

/-! ## Helper lemmas about stripping and digits -/

theorem head_not_of_dropWhile {α} {p : α → Bool} :
    ∀ {l : List α} {x : α}, (l.dropWhile p).head? = some x → p x = false := by
  intro l
  induction l with
  | nil => intro x h; simp [List.dropWhile_nil] at h
  | cons a t ih =>
    intro x h
    rw [List.dropWhile_cons] at h
    by_cases hp : p a = true
    · rw [if_pos hp] at h; exact ih h
    · rw [if_neg hp] at h
      simp only [List.head?_cons, Option.some.injEq] at h
      subst h
      exact Bool.not_eq_true _ ▸ hp

theorem getLast_of_dropWhile {α} {p : α → Bool} :
    ∀ l : List α, l.dropWhile p ≠ [] → (l.dropWhile p).getLast? = l.getLast? := by
  intro l
  induction l with
  | nil => intro h; simp [List.dropWhile_nil] at h
  | cons a t ih =>
    intro h
    rw [List.dropWhile_cons] at h ⊢
    by_cases hp : p a = true
    · rw [if_pos hp] at h ⊢
      rw [ih h]
      have ht : t ≠ [] := by
        intro he; rw [he] at h; exact h (List.dropWhile_nil)
      cases t with
      | nil => exact absurd rfl ht
      | cons b t2 => rw [List.getLast?_cons_cons]
    · rw [if_neg hp]

theorem dropWhile_self_of_head {α} {p : α → Bool} {l : List α}
    (h : ∀ x, l.head? = some x → p x = false) : l.dropWhile p = l := by
  cases l with
  | nil => rfl
  | cons a t =>
    rw [List.dropWhile_cons, if_neg]
    rw [h a rfl]
    simp

theorem stripList_head {l : List Char} {x : Char}
    (h : (stripList l).head? = some x) : x.isWhitespace = false := by
  unfold stripList at h
  rw [List.head?_reverse] at h
  have hne : (((l.dropWhile Char.isWhitespace).reverse).dropWhile Char.isWhitespace) ≠ [] := by
    intro he; rw [he] at h; simp at h
  rw [getLast_of_dropWhile _ hne, List.getLast?_reverse] at h
  exact head_not_of_dropWhile h

theorem stripList_getLast {l : List Char} {x : Char}
    (h : (stripList l).getLast? = some x) : x.isWhitespace = false := by
  unfold stripList at h
  rw [List.getLast?_reverse] at h
  exact head_not_of_dropWhile h

theorem stripList_idem (l : List Char) : stripList (stripList l) = stripList l := by
  have h1 : (stripList l).dropWhile Char.isWhitespace = stripList l :=
    dropWhile_self_of_head (fun x hx => stripList_head hx)
  have h2 : (stripList l).reverse.dropWhile Char.isWhitespace = (stripList l).reverse :=
    dropWhile_self_of_head (fun x hx => by
      rw [List.head?_reverse] at hx
      exact stripList_getLast hx)
  show (((stripList l).dropWhile Char.isWhitespace).reverse.dropWhile Char.isWhitespace).reverse
      = stripList l
  rw [h1, h2, List.reverse_reverse]

theorem pyStrip_idem (s : String) : pyStrip (pyStrip s) = pyStrip s :=
  congrArg String.mk (stripList_idem s.data)

theorem stripList_self_of_all {l : List Char}
    (h : ∀ c ∈ l, c.isWhitespace = false) : stripList l = l := by
  have h1 : l.dropWhile Char.isWhitespace = l :=
    dropWhile_self_of_head (fun x hx => h x (List.mem_of_mem_head? (hx ▸ rfl)))
  show ((l.dropWhile Char.isWhitespace).reverse.dropWhile Char.isWhitespace).reverse = l
  rw [h1]
  have h2 : l.reverse.dropWhile Char.isWhitespace = l.reverse :=
    dropWhile_self_of_head (fun x hx => by
      rw [List.head?_reverse] at hx
      exact h x (List.mem_of_mem_getLast? (hx ▸ rfl)))
  rw [h2, List.reverse_reverse]

theorem pyStrip_self_of_all {s : String}
    (h : ∀ c ∈ s.data, c.isWhitespace = false) : pyStrip s = s :=
  congrArg String.mk (stripList_self_of_all h)

theorem digitChar_not_ws {m : Nat} (h : m < 10) : (Nat.digitChar m).isWhitespace = false := by
  interval_cases m <;> rfl

theorem toDigitsCore_not_ws :
    ∀ (fuel n : Nat) (acc : List Char),
      (∀ c ∈ acc, c.isWhitespace = false) →
      ∀ c ∈ Nat.toDigitsCore 10 fuel n acc, c.isWhitespace = false := by
  intro fuel
  induction fuel with
  | zero => intro n acc hacc c hc; exact hacc c hc
  | succ fu ih =>
    intro n acc hacc c hc
    rw [Nat.toDigitsCore.eq_2] at hc
    have hcons : ∀ c ∈ (n % 10).digitChar :: acc, c.isWhitespace = false := by
      intro c hc
      rcases List.mem_cons.mp hc with h | h
      · rw [h]; exact digitChar_not_ws (Nat.mod_lt _ (by omega))
      · exact hacc c h
    by_cases h0 : n / 10 = 0
    · rw [if_pos h0] at hc; exact hcons c hc
    · rw [if_neg h0] at hc; exact ih (n / 10) _ hcons c hc

theorem repr_not_ws (n : Nat) : ∀ c ∈ (Nat.repr n).data, c.isWhitespace = false :=
  toDigitsCore_not_ws (n + 1) n [] (by intro c hc; cases hc)

theorem httpMarker_stripped (s : Nat) :
    pyStrip ("HTTP_ERROR_" ++ Nat.repr s) = "HTTP_ERROR_" ++ Nat.repr s := by
  apply pyStrip_self_of_all
  intro c hc
  rw [String.data_append] at hc
  rcases List.mem_append.mp hc with h | h
  · exact (by decide : ∀ c ∈ ("HTTP_ERROR_" : String).data, c.isWhitespace = false) c h
  · exact repr_not_ws s c h

theorem httpMarker_ne_empty (s : Nat) : ("HTTP_ERROR_" ++ Nat.repr s) ≠ "" := by
  intro h
  have hd := congrArg String.data h
  rw [String.data_append] at hd
  have hlen := congrArg List.length hd
  rw [List.length_append] at hlen
  have h11 : ("HTTP_ERROR_" : String).data.length = 11 := rfl
  have h0 : ("" : String).data.length = 0 := rfl
  rw [h11, h0] at hlen
  omega

/-! ## Helper lemmas about the cleaned keyword list -/

theorem cleanKw_mem {l : List String} :
    ∀ k ∈ cleanKw l, k ≠ "" ∧ pyStrip k = k := by
  intro k hk
  unfold cleanKw at hk
  rcases List.mem_map.mp hk with ⟨k0, hk0, rfl⟩
  have hcond := (List.mem_filter.mp hk0).2
  rw [Bool.and_eq_true] at hcond
  refine ⟨?_, pyStrip_idem k0⟩
  intro he
  exact absurd (he ▸ hcond.2) (by simp)

/-! ## Evaluation lemmas for `get_uniprot_keywords` -/

theorem getKw_httpError (s : Nat) :
    get_uniprot_keywords (.httpError s) =
      if s = 404 then ["UNIPROT_ENTRY_NOT_FOUND"] else ["HTTP_ERROR_" ++ Nat.repr s] := rfl

theorem getKw_requestError : get_uniprot_keywords .requestError = ["REQUEST_ERROR"] := rfl

theorem kwAttempt_success (doc : Document) :
    kwAttempt (.success doc) =
      match collectKeywords doc with
      | .error _ => .error .other
      | .ok raw => .ok (if (cleanKw raw).isEmpty then ["NO_KEYWORDS_FOUND"] else cleanKw raw) := rfl

theorem getKw_success_error {doc : Document} (h : collectKeywords doc = .error ()) :
    get_uniprot_keywords (.success doc) = ["PROCESSING_ERROR"] := by
  have ha : kwAttempt (.success doc) = .error .other := by rw [kwAttempt_success, h]
  show (match kwAttempt (.success doc) with
        | .ok r => r
        | .error e => kwHandlers e) = _
  rw [ha]
  rfl

theorem getKw_success_ok {doc : Document} {raw : List String}
    (h : collectKeywords doc = .ok raw) :
    get_uniprot_keywords (.success doc) =
      if (cleanKw raw).isEmpty then ["NO_KEYWORDS_FOUND"] else cleanKw raw := by
  have ha : kwAttempt (.success doc)
      = .ok (if (cleanKw raw).isEmpty then ["NO_KEYWORDS_FOUND"] else cleanKw raw) := by
    rw [kwAttempt_success, h]
  show (match kwAttempt (.success doc) with
        | .ok r => r
        | .error e => kwHandlers e) = _
  rw [ha]

end Mcbdd

namespace Mcbdd

/-! ## Claim C1: error taxonomy of `get_uniprot_keywords` -/

/-- C1: for every accession, keyword extraction never raises past its
boundary (the embedded function is total) and maps each failure condition
to its distinct single-element marker: HTTP 404 to
`["UNIPROT_ENTRY_NOT_FOUND"]`, any other HTTP status error to
`["HTTP_ERROR_<status>"]` with that status, a transport failure to
`["REQUEST_ERROR"]`, and any exception during parsing or extraction to
`["PROCESSING_ERROR"]`. -/
theorem C1_error_taxonomy (doc : Document) (s : Nat) :
    get_uniprot_keywords (.httpError 404) = ["UNIPROT_ENTRY_NOT_FOUND"]
    ∧ (s ≠ 404 → get_uniprot_keywords (.httpError s) = ["HTTP_ERROR_" ++ Nat.repr s])
    ∧ get_uniprot_keywords .requestError = ["REQUEST_ERROR"]
    ∧ (collectKeywords doc = .error () →
        get_uniprot_keywords (.success doc) = ["PROCESSING_ERROR"]) := by
  refine ⟨rfl, ?_, rfl, ?_⟩
  · intro hs
    rw [getKw_httpError, if_neg hs]
  · intro hcol
    exact getKw_success_error hcol

/-- Witness for C1 at concrete inputs: status 500 and a document whose
extraction raises. -/
theorem C1_error_taxonomy_witness :
    get_uniprot_keywords (.httpError 500) = ["HTTP_ERROR_500"]
    ∧ get_uniprot_keywords (.success docC1bad) = ["PROCESSING_ERROR"] := by
  refine ⟨?_, ?_⟩
  · have h := (C1_error_taxonomy docEmpty 500).2.1 (by decide)
    exact h.trans (by decide)
  · exact (C1_error_taxonomy docC1bad 500).2.2.2 (by rfl)

/-! ## Claim C2: shape invariants of the returned keyword collection -/

/-- C2 counterexample: a retrieved document carrying the raw keywords
`"NO_KEYWORDS_FOUND"`, `"X"` and `"X "` produces
`["NO_KEYWORDS_FOUND", "X", "X"]` - an element occurs twice (the set
deduplicates before stripping, not after), and a string equal to a
reserved marker sits alongside real keywords. -/
theorem C2_keyword_shape_counterexample :
    get_uniprot_keywords (.success docC2) = ["NO_KEYWORDS_FOUND", "X", "X"]
    ∧ ¬ (get_uniprot_keywords (.success docC2)).Nodup
    ∧ "NO_KEYWORDS_FOUND" ∈ get_uniprot_keywords (.success docC2)
    ∧ get_uniprot_keywords (.success docC2) ≠ ["NO_KEYWORDS_FOUND"] := by
  refine ⟨by decide, by decide, by decide, by decide⟩

/-- C2 amended: the collection returned by `get_uniprot_keywords` is never
empty, every element is a trimmed non-empty string, and when a document is
retrieved successfully but the cleaned union of the four strategies is
empty the result is exactly `["NO_KEYWORDS_FOUND"]`.  However the raw
collected strings are deduplicated *before* trimming, so two distinct raw
strings trimming to the same keyword leave a duplicate in the result, and a
document-supplied keyword equal to a reserved marker string can appear
alongside real keywords. -/
theorem C2_keyword_shape_amended (f : FetchResult) :
    get_uniprot_keywords f ≠ []
    ∧ (∀ k ∈ get_uniprot_keywords f, k ≠ "" ∧ pyStrip k = k)
    ∧ (∀ doc raw, f = .success doc → collectKeywords doc = .ok raw → cleanKw raw = [] →
        get_uniprot_keywords f = ["NO_KEYWORDS_FOUND"]) := by
  refine ⟨?_, ?_, ?_⟩
  · cases f with
    | httpError s =>
      rw [getKw_httpError]
      by_cases h4 : s = 404
      · rw [if_pos h4]; decide
      · rw [if_neg h4]; exact List.cons_ne_nil _ _
    | requestError => rw [getKw_requestError]; decide
    | success doc =>
      cases hcol : collectKeywords doc with
      | error e =>
        cases e
        rw [getKw_success_error hcol]; decide
      | ok raw =>
        rw [getKw_success_ok hcol]
        by_cases hemp : (cleanKw raw).isEmpty = true
        · rw [if_pos hemp]; decide
        · rw [if_neg hemp]
          intro he
          rw [he] at hemp
          exact hemp rfl
  · intro k hk
    revert hk
    cases f with
    | httpError s =>
      rw [getKw_httpError]
      by_cases h4 : s = 404
      · rw [if_pos h4]
        intro hk
        rcases List.mem_singleton.mp hk with rfl
        exact ⟨by decide, by decide⟩
      · rw [if_neg h4]
        intro hk
        rcases List.mem_singleton.mp hk with rfl
        exact ⟨httpMarker_ne_empty s, httpMarker_stripped s⟩
    | requestError =>
      rw [getKw_requestError]
      intro hk
      rcases List.mem_singleton.mp hk with rfl
      exact ⟨by decide, by decide⟩
    | success doc =>
      cases hcol : collectKeywords doc with
      | error e =>
        cases e
        rw [getKw_success_error hcol]
        intro hk
        rcases List.mem_singleton.mp hk with rfl
        exact ⟨by decide, by decide⟩
      | ok raw =>
        rw [getKw_success_ok hcol]
        by_cases hemp : (cleanKw raw).isEmpty = true
        · rw [if_pos hemp]
          intro hk
          rcases List.mem_singleton.mp hk with rfl
          exact ⟨by decide, by decide⟩
        · rw [if_neg hemp]
          intro hk
          exact cleanKw_mem k hk
  · intro doc raw hf hcol hclean
    subst hf
    rw [getKw_success_ok hcol, hclean]
    rfl

/-- Witness for C2 amended: the empty document retrieves successfully,
yields nothing extractable, and returns exactly the no-data marker, whose
element is trimmed and non-empty. -/
theorem C2_keyword_shape_amended_witness :
    get_uniprot_keywords (.success docEmpty) = ["NO_KEYWORDS_FOUND"]
    ∧ ("NO_KEYWORDS_FOUND" ≠ "" ∧ pyStrip "NO_KEYWORDS_FOUND" = "NO_KEYWORDS_FOUND") := by
  refine ⟨?_, ?_⟩
  · exact (C2_keyword_shape_amended (.success docEmpty)).2.2 docEmpty [] rfl (by rfl) (by rfl)
  · exact (C2_keyword_shape_amended (.success docEmpty)).2.1 "NO_KEYWORDS_FOUND" (by decide)

/-! ## Helper lemmas about `addKw` folds (Python set insertion) -/

theorem mem_addKw {l : List String} {x y : String} :
    y ∈ addKw l x ↔ y ∈ l ∨ y = x := by
  unfold addKw
  by_cases h : x ∈ l
  · rw [if_pos h]
    constructor
    · exact Or.inl
    · rintro (hy | rfl)
      · exact hy
      · exact h
  · rw [if_neg h]
    simp [List.mem_append]

theorem addKw_nodup {l : List String} {x : String} (h : l.Nodup) : (addKw l x).Nodup := by
  unfold addKw
  by_cases hx : x ∈ l
  · rw [if_pos hx]; exact h
  · rw [if_neg hx]
    rw [List.nodup_append]
    refine ⟨h, List.nodup_singleton x, ?_⟩
    intro a ha hax
    rw [List.mem_singleton] at hax
    exact hx (hax ▸ ha)

theorem foldl_inv {α β : Type} (inv : β → Prop) (step : β → α → β)
    (h : ∀ b a, inv b → inv (step b a)) :
    ∀ (l : List α) (b : β), inv b → inv (l.foldl step b) := by
  intro l
  induction l with
  | nil => intro b hb; exact hb
  | cons a t ih => intro b hb; exact ih (step b a) (h b a hb)

theorem mem_foldl_addKw :
    ∀ (l acc : List String) (x : String),
      x ∈ l.foldl addKw acc ↔ x ∈ acc ∨ x ∈ l := by
  intro l
  induction l with
  | nil => intro acc x; simp
  | cons a t ih =>
    intro acc x
    show x ∈ t.foldl addKw (addKw acc a) ↔ _
    rw [ih, mem_addKw, List.mem_cons]
    tauto

theorem nodup_foldl_addKw (l acc : List String) (h : acc.Nodup) :
    (l.foldl addKw acc).Nodup :=
  foldl_inv List.Nodup addKw (fun _ _ hb => addKw_nodup hb) l acc h

/-! ## Claim C6: shape of the target list returned per drug -/

theorem drugTargetSet_inv (env : DrugEnv) :
    (drugTargetSet env).Nodup ∧ ∀ x ∈ drugTargetSet env, x ≠ "" := by
  unfold drugTargetSet
  refine foldl_inv (fun l => l.Nodup ∧ ∀ x ∈ l, x ≠ "") _ ?_ env.mechs []
    ⟨List.nodup_nil, by simp⟩
  intro b mech hb
  unfold addMech
  cases mech.target_chembl_id with
  | none => exact hb
  | some tid =>
    rw [addTid]
    by_cases ht : tid = ""
    · rw [if_pos ht]; exact hb
    · rw [if_neg ht]
      refine foldl_inv (fun l => l.Nodup ∧ ∀ x ∈ l, x ≠ "") _ ?_ (env.lookup tid) b hb
      intro a tr ha
      unfold addTargetRec
      refine foldl_inv (fun l => l.Nodup ∧ ∀ x ∈ l, x ≠ "") _ ?_ tr.target_components a ha
      intro c comp hc
      unfold addComp
      cases comp.accession with
      | none => exact hc
      | some a0 =>
        rw [addAccession]
        by_cases h0 : a0 = ""
        · rw [if_pos h0]; exact hc
        · rw [if_neg h0]
          refine ⟨addKw_nodup hc.1, ?_⟩
          intro x hx
          rcases mem_addKw.mp hx with h | rfl
          · exact hc.2 x h
          · exact h0

/-- C6: for every drug (for every outcome of the upstream walk, including
the soft-failure path), `get_drug_targets` returns a duplicate-free list in
which no element is empty and no element starts with the reserved gene
namespace prefix `ENSG`. -/
theorem C6_target_list_clean (o : Except Unit DrugEnv) :
    (get_drug_targets o).Nodup
    ∧ (get_drug_targets o).all (fun t => !(t == "") && !pyStartswith t "ENSG") = true := by
  cases o with
  | error e => exact ⟨List.nodup_nil, rfl⟩
  | ok env =>
    have hinv := drugTargetSet_inv env
    refine ⟨hinv.1.filter _, ?_⟩
    rw [List.all_eq_true]
    intro x hx
    have hmem := List.mem_filter.mp hx
    have hne := hinv.2 x hmem.1
    rw [Bool.and_eq_true]
    refine ⟨?_, hmem.2⟩
    have hb : (x == "") = false := beq_eq_false_iff_ne.mpr hne
    rw [hb]
    rfl

/-! ## Claim C8: the pacing sleep runs on every exit path -/

/-- C8: every invocation of `get_uniprot_keywords` - the successful
extraction path, the `NO_KEYWORDS_FOUND` fallback, and every error-marker
path - emits exactly one pacing-sleep event, as the final event before the
call returns, and the value returned alongside the trace is exactly
`get_uniprot_keywords`. -/
theorem C8_unconditional_pacing (accession : String) (f : FetchResult) :
    (get_uniprot_keywords_run accession f).2 = [Ev.fetchKw accession, Ev.sleepEv]
    ∧ (get_uniprot_keywords_run accession f).2.getLast? = some Ev.sleepEv
    ∧ (get_uniprot_keywords_run accession f).2.count Ev.sleepEv = 1
    ∧ (get_uniprot_keywords_run accession f).1 = get_uniprot_keywords f := by
  unfold get_uniprot_keywords_run get_uniprot_keywords
  cases kwAttempt f with
  | ok r => exact ⟨rfl, rfl, by simp [List.count_cons], rfl⟩
  | error e => exact ⟨rfl, rfl, by simp [List.count_cons], rfl⟩

/-! ## Claim C9: the strategies are not failure-isolated -/

/-- C9: the four extraction strategies are not failure-isolated.  On a
document where strategy 1 and strategy 3 have collected real keywords, a
single later malformed entry - a `dbReferences` entry without `type`, or a
`similarity` comment without a `text` array - makes `get_uniprot_keywords`
return exactly `["PROCESSING_ERROR"]`, discarding everything collected. -/
theorem C9_no_failure_isolation :
    get_uniprot_keywords (.success docC9good) = ["Kinase", "kinase activity"]
    ∧ get_uniprot_keywords (.success docC9bad) = ["PROCESSING_ERROR"]
    ∧ get_uniprot_keywords (.success docC9comment) = ["PROCESSING_ERROR"] := by
  refine ⟨by decide, by decide, by decide⟩

/-! ## Helper lemmas: the target-resolution phase as a fold -/

theorem targetPhase_go_fst (resolve : Drug → Except Unit (List String)) :
    ∀ (ds : List Drug) (acc : List Row × List String),
      (ds.foldl (targetStep resolve) acc).1
        = acc.1 ++ ds.filterMap (fun d => okRow d (resolve d)) := by
  intro ds
  induction ds with
  | nil => intro acc; simp
  | cons d t ih =>
    intro acc
    show (t.foldl (targetStep resolve) (targetStep resolve acc d)).1 = _
    cases hr : resolve d with
    | ok ts =>
      have hstep : targetStep resolve acc d = (acc.1 ++ [mkRow d ts], ts.foldl addKw acc.2) := by
        unfold targetStep; rw [hr]; rfl
      have hrow : okRow d (resolve d) = some (mkRow d ts) := by rw [hr]; rfl
      rw [hstep, ih,
        @List.filterMap_cons_some _ _ (fun x => okRow x (resolve x)) d t (mkRow d ts) hrow]
      simp [List.append_assoc]
    | error e =>
      have hstep : targetStep resolve acc d = acc := by
        unfold targetStep; rw [hr]; rfl
      have hrow : okRow d (resolve d) = none := by rw [hr]; rfl
      rw [hstep, ih, @List.filterMap_cons_none _ _ (fun x => okRow x (resolve x)) d t hrow]

theorem targetPhase_go_snd (resolve : Drug → Except Unit (List String)) :
    ∀ (ds : List Drug) (acc : List Row × List String),
      (ds.foldl (targetStep resolve) acc).2
        = (ds.flatMap (fun d => okT (resolve d))).foldl addKw acc.2 := by
  intro ds
  induction ds with
  | nil => intro acc; simp
  | cons d t ih =>
    intro acc
    show (t.foldl (targetStep resolve) (targetStep resolve acc d)).2 = _
    rw [List.flatMap_cons, List.foldl_append]
    cases hr : resolve d with
    | ok ts =>
      have hstep : targetStep resolve acc d = (acc.1 ++ [mkRow d ts], ts.foldl addKw acc.2) := by
        unfold targetStep; rw [hr]; rfl
      rw [hstep, ih]
      rfl
    | error e =>
      have hstep : targetStep resolve acc d = acc := by
        unfold targetStep; rw [hr]; rfl
      rw [hstep, ih]
      rfl

theorem targetPhase_fst (resolve : Drug → Except Unit (List String)) (ds : List Drug) :
    (targetPhase resolve ds).1 = ds.filterMap (fun d => okRow d (resolve d)) := by
  unfold targetPhase
  rw [targetPhase_go_fst]
  rfl

theorem targetPhase_snd (resolve : Drug → Except Unit (List String)) (ds : List Drug) :
    (targetPhase resolve ds).2 = dedupFirst (ds.flatMap (fun d => okT (resolve d))) := by
  unfold targetPhase dedupFirst
  rw [targetPhase_go_snd]

/-! ## Helper lemmas: trace projections of `main` -/

theorem run_snd (accession : String) (f : FetchResult) :
    (get_uniprot_keywords_run accession f).2 = [Ev.fetchKw accession, Ev.sleepEv] := by
  unfold get_uniprot_keywords_run
  cases kwAttempt f <;> rfl

theorem kwBlock_eq (env : Env) (t : String) :
    kwBlock env t
      = [Ev.fetchKw t, Ev.sleepEv,
         Ev.writeTK t (tkCell (get_uniprot_keywords_run t (env.fetch t)).1)] := by
  show (get_uniprot_keywords_run t (env.fetch t)).2
      ++ [Ev.writeTK t (tkCell (get_uniprot_keywords_run t (env.fetch t)).1)] = _
  rw [run_snd]
  rfl

theorem filterMap_const_none {α β : Type} (l : List α) :
    l.filterMap (fun _ => (none : Option β)) = [] := by
  induction l with
  | nil => rfl
  | cons a t ih => rw [List.filterMap_cons_none rfl, ih]

theorem dtRows_append (a b : List Ev) : dtRows (a ++ b) = dtRows a ++ dtRows b :=
  List.filterMap_append a b evDT

theorem dtRows_map_fetchTargets (ds : List Drug) : dtRows (ds.map Ev.fetchTargets) = [] := by
  unfold dtRows
  rw [List.filterMap_map]
  exact filterMap_const_none ds

theorem dtRows_map_rowEv (rs : List Row) :
    dtRows (rs.map rowEv) = rs.map (fun r => (r.name, r.year, pyJoin ", " r.targets)) := by
  unfold dtRows
  rw [List.filterMap_map]
  rw [show (evDT ∘ rowEv) = some ∘ (fun r : Row => (r.name, r.year, pyJoin ", " r.targets))
    from rfl]
  rw [List.filterMap_eq_map]

theorem dtRows_kwBlocks (env : Env) (ts : List String) :
    dtRows (ts.flatMap (kwBlock env)) = [] := by
  induction ts with
  | nil => rfl
  | cons t tl ih =>
    rw [List.flatMap_cons, dtRows_append, ih, kwBlock_eq]
    rfl

theorem kwFetches_append (a b : List Ev) : kwFetches (a ++ b) = kwFetches a ++ kwFetches b :=
  List.filterMap_append a b evKwFetch

theorem kwFetches_map_fetchTargets (ds : List Drug) :
    kwFetches (ds.map Ev.fetchTargets) = [] := by
  unfold kwFetches
  rw [List.filterMap_map]
  exact filterMap_const_none ds

theorem kwFetches_map_rowEv (rs : List Row) : kwFetches (rs.map rowEv) = [] := by
  unfold kwFetches
  rw [List.filterMap_map]
  exact filterMap_const_none rs

theorem kwFetches_kwBlocks (env : Env) (ts : List String) :
    kwFetches (ts.flatMap (kwBlock env)) = ts := by
  induction ts with
  | nil => rfl
  | cons t tl ih =>
    rw [List.flatMap_cons, kwFetches_append, ih, kwBlock_eq]
    rfl

theorem tkAccs_append (a b : List Ev) : tkAccs (a ++ b) = tkAccs a ++ tkAccs b :=
  List.filterMap_append a b evTK

theorem tkAccs_map_fetchTargets (ds : List Drug) : tkAccs (ds.map Ev.fetchTargets) = [] := by
  unfold tkAccs
  rw [List.filterMap_map]
  exact filterMap_const_none ds

theorem tkAccs_map_rowEv (rs : List Row) : tkAccs (rs.map rowEv) = [] := by
  unfold tkAccs
  rw [List.filterMap_map]
  exact filterMap_const_none rs

theorem tkAccs_kwBlocks (env : Env) (ts : List String) :
    tkAccs (ts.flatMap (kwBlock env)) = ts := by
  induction ts with
  | nil => rfl
  | cons t tl ih =>
    rw [List.flatMap_cons, tkAccs_append, ih, kwBlock_eq]
    rfl

theorem recentDrugs_of_empty {env : Env} (h : (get_approved_drugs env.db).isEmpty = true) :
    recentDrugs (get_approved_drugs env.db) = [] := by
  rw [List.isEmpty_iff.mp h]
  rfl

theorem dtRows_mainTrace (env : Env) :
    dtRows (mainTrace env)
      = ((targetPhase env.resolve (recentDrugs (get_approved_drugs env.db))).1).map
          (fun r => (r.name, r.year, pyJoin ", " r.targets)) := by
  unfold mainTrace mainRest
  by_cases h1 : (get_approved_drugs env.db).isEmpty = true
  · rw [if_pos h1, recentDrugs_of_empty h1]
    rfl
  · rw [if_neg h1]
    by_cases h2 : (recentDrugs (get_approved_drugs env.db)).isEmpty = true
    · rw [if_pos h2, List.isEmpty_iff.mp h2]
      rfl
    · rw [if_neg h2]
      rw [dtRows_append, dtRows_append, dtRows_append, dtRows_map_fetchTargets,
        dtRows_map_rowEv, dtRows_kwBlocks]
      simp [dtRows, evDT]

theorem kwFetches_mainTrace (env : Env) :
    kwFetches (mainTrace env)
      = (targetPhase env.resolve (recentDrugs (get_approved_drugs env.db))).2 := by
  unfold mainTrace mainRest
  by_cases h1 : (get_approved_drugs env.db).isEmpty = true
  · rw [if_pos h1, recentDrugs_of_empty h1]
    rfl
  · rw [if_neg h1]
    by_cases h2 : (recentDrugs (get_approved_drugs env.db)).isEmpty = true
    · rw [if_pos h2, List.isEmpty_iff.mp h2]
      rfl
    · rw [if_neg h2]
      rw [kwFetches_append, kwFetches_append, kwFetches_append, kwFetches_map_fetchTargets,
        kwFetches_map_rowEv, kwFetches_kwBlocks]
      simp [kwFetches, evKwFetch]

theorem tkAccs_mainTrace (env : Env) :
    tkAccs (mainTrace env)
      = (targetPhase env.resolve (recentDrugs (get_approved_drugs env.db))).2 := by
  unfold mainTrace mainRest
  by_cases h1 : (get_approved_drugs env.db).isEmpty = true
  · rw [if_pos h1, recentDrugs_of_empty h1]
    rfl
  · rw [if_neg h1]
    by_cases h2 : (recentDrugs (get_approved_drugs env.db)).isEmpty = true
    · rw [if_pos h2, List.isEmpty_iff.mp h2]
      rfl
    · rw [if_neg h2]
      rw [tkAccs_append, tkAccs_append, tkAccs_append, tkAccs_map_fetchTargets,
        tkAccs_map_rowEv, tkAccs_kwBlocks]
      simp [tkAccs, evTK]

/-! ## Claim C3: when output is emitted -/

/-- C3 counterexample: on a one-drug, one-target run the drug-target row
is written (event 5) before the keyword lookup happens (event 6), and the
table-2 row is streamed immediately after its lookup - output emission is
not all-or-nothing after both phases. -/
theorem C3_single_emission_counterexample :
    mainTrace envC3
      = [.openFiles, .writeDTHeader, .writeTKHeader, .fetchDrugs,
         .fetchTargets drugC3, .writeDT "A" (.int 2020) "P1",
         .fetchKw "P1", .sleepEv, .writeTK "P1" "NO_KEYWORDS_FOUND"]
    ∧ noResolutionAfterWrite (mainTrace envC3) = false := by
  refine ⟨by decide, by decide⟩

theorem kwBlocks_no_dt_no_tfetch (env : Env) (ts : List String) :
    ∀ e ∈ ts.flatMap (kwBlock env), evDT e = none ∧ evTFetch e = none := by
  intro e he
  rcases List.mem_flatMap.mp he with ⟨t, _, hmem⟩
  rw [kwBlock_eq] at hmem
  rcases List.mem_cons.mp hmem with rfl | hmem
  · exact ⟨rfl, rfl⟩
  rcases List.mem_cons.mp hmem with rfl | hmem
  · exact ⟨rfl, rfl⟩
  rcases List.mem_cons.mp hmem with rfl | hmem
  · exact ⟨rfl, rfl⟩
  · cases hmem

/-- C3 amended: output is not all-or-nothing.  The trace splits into the
header prologue and then three segments: the resolution segment `lt`,
exactly one `fetchTargets` per cohort drug in cohort order and with no
write event of either table; the write segment `lw`, with no resolution
event of either phase and whose table-1 writes are exactly the accumulated
rows; and the keyword segment `lk`, the stream of per-accession blocks -
each a lookup, the pacing sleep, and its table-2 row write - with no
table-1 write and no target resolution.  Hence no data row is written
during target resolution, every table-1 row is written after the target
phase completes and before any keyword lookup, and table-2 rows are
streamed one per lookup. -/
theorem C3_single_emission_amended (env : Env) :
    ∃ lt lw lk,
      mainTrace env
        = [Ev.openFiles, Ev.writeDTHeader, Ev.writeTKHeader, Ev.fetchDrugs] ++ lt ++ lw ++ lk
      ∧ lt = (recentDrugs (get_approved_drugs env.db)).map Ev.fetchTargets
      ∧ (∀ e ∈ lt, isRowWrite e = false)
      ∧ (∀ e ∈ lw, isResolutionEv e = false ∧ evTK e = none)
      ∧ dtRows lw
          = ((targetPhase env.resolve (recentDrugs (get_approved_drugs env.db))).1).map
              (fun r => (r.name, r.year, pyJoin ", " r.targets))
      ∧ lk = ((targetPhase env.resolve (recentDrugs (get_approved_drugs env.db))).2).flatMap
              (kwBlock env)
      ∧ (∀ e ∈ lk, evDT e = none ∧ evTFetch e = none)
      ∧ ∀ t, kwBlock env t
          = [Ev.fetchKw t, Ev.sleepEv,
             Ev.writeTK t (tkCell (get_uniprot_keywords_run t (env.fetch t)).1)] := by
  unfold mainTrace mainRest
  by_cases h1 : (get_approved_drugs env.db).isEmpty = true
  · refine ⟨[], [], [], ?_, ?_, by simp, by simp, ?_, ?_, by simp, kwBlock_eq env⟩
    · rw [if_pos h1]
      simp
    · rw [recentDrugs_of_empty h1]
      rfl
    · rw [recentDrugs_of_empty h1]
      rfl
    · rw [recentDrugs_of_empty h1]
      rfl
  · rw [if_neg h1]
    by_cases h2 : (recentDrugs (get_approved_drugs env.db)).isEmpty = true
    · refine ⟨[], [], [], ?_, ?_, by simp, by simp, ?_, ?_, by simp, kwBlock_eq env⟩
      · rw [if_pos h2]
        simp
      · rw [List.isEmpty_iff.mp h2]
        rfl
      · rw [List.isEmpty_iff.mp h2]
        rfl
      · rw [List.isEmpty_iff.mp h2]
        rfl
    · rw [if_neg h2]
      refine ⟨(recentDrugs (get_approved_drugs env.db)).map Ev.fetchTargets,
        ((targetPhase env.resolve (recentDrugs (get_approved_drugs env.db))).1).map rowEv,
        ((targetPhase env.resolve (recentDrugs (get_approved_drugs env.db))).2).flatMap
          (kwBlock env),
        ?_, rfl, ?_, ?_, ?_, rfl, kwBlocks_no_dt_no_tfetch env _, kwBlock_eq env⟩
      · simp [List.append_assoc]
      · intro e he
        rcases List.mem_map.mp he with ⟨d, _, rfl⟩
        rfl
      · intro e he
        rcases List.mem_map.mp he with ⟨r, _, rfl⟩
        exact ⟨rfl, rfl⟩
      · rw [dtRows_map_rowEv]

/-! ## Claim C4: per-drug failure handling in the target phase -/

/-- C4 counterexample: with two drugs in the cohort, the first raising and
the second resolving to an empty target list, the accumulated table has
exactly one row - the failing drug gets no row (the handler `continue`s
without appending), while iteration does continue to the next drug. -/
theorem C4_perdrug_row_counterexample :
    resolveC4 drugC4a = .error ()
    ∧ (targetPhase resolveC4 [drugC4a, drugC4b]).1 = [⟨"B", .int 2020, []⟩]
    ∧ ¬ ∃ r ∈ (targetPhase resolveC4 [drugC4a, drugC4b]).1, r.name = "A" := by
  refine ⟨by decide, by decide, by decide⟩

/-- C4 amended: for every drug whose `try` body succeeds a (name, year,
targets) row is appended even when the target list is empty, and the
accumulated table is exactly the in-order rows of the succeeding drugs; a
per-drug exception is caught and iteration continues over the remaining
drugs, but no row is appended for the failing drug.  When resolution goes
through `get_drug_targets` itself - which converts its own exceptions to
`[]` - every drug of the cohort gets a row. -/
theorem C4_perdrug_isolation_amended (resolve : Drug → Except Unit (List String))
    (ds : List Drug) :
    (targetPhase resolve ds).1 = ds.filterMap (fun d => okRow d (resolve d))
    ∧ (∀ d ∈ ds, ∀ ts, resolve d = .ok ts → mkRow d ts ∈ (targetPhase resolve ds).1)
    ∧ (∀ f : Drug → Except Unit DrugEnv,
        ((targetPhase (fun d => .ok (get_drug_targets (f d))) ds).1).length = ds.length) := by
  refine ⟨targetPhase_fst resolve ds, ?_, ?_⟩
  · intro d hd ts hr
    rw [targetPhase_fst]
    exact List.mem_filterMap.mpr ⟨d, hd, by rw [hr]; rfl⟩
  · intro f
    rw [targetPhase_fst]
    rw [show (fun d => okRow d (Except.ok (get_drug_targets (f d))))
        = some ∘ (fun d => mkRow d (get_drug_targets (f d))) from rfl]
    rw [List.filterMap_eq_map, List.length_map]

/-- Witness for C4 amended: a drug resolving to an empty target list still
gets its row. -/
theorem C4_perdrug_isolation_amended_witness :
    mkRow drugC4b [] ∈ (targetPhase resolveC4 [drugC4a, drugC4b]).1 :=
  (C4_perdrug_isolation_amended resolveC4 [drugC4a, drugC4b]).2.1 drugC4b
    (by decide) [] (by decide)

/-! ## Claim C7: the global accession set and the keyword phase -/

/-- C7: across one run, the global accession set equals the deduplicated
union of the target lists of the drugs that resolved (membership
characterization plus no duplicates), and the keyword phase performs
exactly one lookup and writes exactly one table-2 row per element of that
set, in set order - an accession shared by several drugs is looked up only
once. -/
theorem C7_global_set_and_lookups (env : Env) :
    (∀ x, x ∈ (targetPhase env.resolve (recentDrugs (get_approved_drugs env.db))).2
        ↔ ∃ d ∈ recentDrugs (get_approved_drugs env.db), x ∈ okTargets env.resolve d)
    ∧ ((targetPhase env.resolve (recentDrugs (get_approved_drugs env.db))).2).Nodup
    ∧ kwFetches (mainTrace env)
        = (targetPhase env.resolve (recentDrugs (get_approved_drugs env.db))).2
    ∧ tkAccs (mainTrace env)
        = (targetPhase env.resolve (recentDrugs (get_approved_drugs env.db))).2 := by
  refine ⟨?_, ?_, kwFetches_mainTrace env, tkAccs_mainTrace env⟩
  · intro x
    rw [targetPhase_snd]
    unfold dedupFirst
    rw [mem_foldl_addKw]
    simp only [List.not_mem_nil, false_or]
    rw [List.mem_flatMap]
    rfl
  · rw [targetPhase_snd]
    exact nodup_foldl_addKw _ [] List.nodup_nil

/-! ## Claim C10: files and headers precede cohort retrieval -/

/-- C10: both output files are opened and both header rows written before
the cohort query happens; everything after the fixed prologue contains no
further open, header write, or cohort query; and a run whose cohort
retrieval fails soft (or returns nothing) ends right after the prologue,
leaving both files containing exactly their header row. -/
theorem C10_headers_before_cohort (env : Env) :
    mainTrace env
      = Ev.openFiles :: Ev.writeDTHeader :: Ev.writeTKHeader :: Ev.fetchDrugs :: mainRest env
    ∧ (∀ e ∈ mainRest env,
        e ≠ Ev.openFiles ∧ e ≠ Ev.writeDTHeader ∧ e ≠ Ev.writeTKHeader ∧ e ≠ Ev.fetchDrugs)
    ∧ (env.db = .error () → mainRest env = [])
    ∧ (get_approved_drugs env.db = [] → mainRest env = []) := by
  refine ⟨rfl, ?_, ?_, ?_⟩
  · intro e he
    revert he
    unfold mainRest
    by_cases h1 : (get_approved_drugs env.db).isEmpty = true
    · rw [if_pos h1]
      intro he
      cases he
    · rw [if_neg h1]
      by_cases h2 : (recentDrugs (get_approved_drugs env.db)).isEmpty = true
      · rw [if_pos h2]
        intro he
        cases he
      · rw [if_neg h2]
        intro he
        rcases List.mem_append.mp he with h | h
        · rcases List.mem_append.mp h with h | h
          · rcases List.mem_map.mp h with ⟨d, _, rfl⟩
            exact ⟨by simp, by simp, by simp, by simp⟩
          · rcases List.mem_map.mp h with ⟨r, _, rfl⟩
            exact ⟨by simp [rowEv], by simp [rowEv], by simp [rowEv], by simp [rowEv]⟩
        · rcases List.mem_flatMap.mp h with ⟨t, _, hmem⟩
          rw [kwBlock_eq] at hmem
          rcases List.mem_cons.mp hmem with rfl | hmem
          · exact ⟨by simp, by simp, by simp, by simp⟩
          rcases List.mem_cons.mp hmem with rfl | hmem
          · exact ⟨by simp, by simp, by simp, by simp⟩
          rcases List.mem_cons.mp hmem with rfl | hmem
          · exact ⟨by simp, by simp, by simp, by simp⟩
          · cases hmem
  · intro hdb
    unfold mainRest
    rw [show get_approved_drugs env.db = [] from by rw [hdb]; rfl]
    rfl
  · intro hdb
    unfold mainRest
    rw [hdb]
    rfl

/-- Witness for C10: on the run whose cohort query raises, the trace is
exactly the prologue - files opened, both headers written, cohort query
attempted, nothing else. -/
theorem C10_headers_before_cohort_witness :
    mainTrace envC10
      = [Ev.openFiles, Ev.writeDTHeader, Ev.writeTKHeader, Ev.fetchDrugs] := by
  have h := C10_headers_before_cohort envC10
  have hrest : mainRest envC10 = [] := h.2.2.1 rfl
  rw [h.1, hrest]

/-! ## Helper lemmas for the cohort filter and ordering -/

theorem tFetches_append (a b : List Ev) : tFetches (a ++ b) = tFetches a ++ tFetches b :=
  List.filterMap_append a b evTFetch

theorem tFetches_map_fetchTargets (ds : List Drug) :
    tFetches (ds.map Ev.fetchTargets) = ds := by
  unfold tFetches
  rw [List.filterMap_map]
  rw [show (evTFetch ∘ Ev.fetchTargets) = some ∘ (fun d : Drug => d) from rfl]
  rw [List.filterMap_eq_map]
  exact List.map_id ds

theorem tFetches_map_rowEv (rs : List Row) : tFetches (rs.map rowEv) = [] := by
  unfold tFetches
  rw [List.filterMap_map]
  exact filterMap_const_none rs

theorem tFetches_kwBlocks (env : Env) (ts : List String) :
    tFetches (ts.flatMap (kwBlock env)) = [] := by
  induction ts with
  | nil => rfl
  | cons t tl ih =>
    rw [List.flatMap_cons, tFetches_append, ih, kwBlock_eq]
    rfl

theorem tFetches_mainTrace (env : Env) :
    tFetches (mainTrace env) = recentDrugs (get_approved_drugs env.db) := by
  unfold mainTrace mainRest
  by_cases h1 : (get_approved_drugs env.db).isEmpty = true
  · rw [if_pos h1, recentDrugs_of_empty h1]
    rfl
  · rw [if_neg h1]
    by_cases h2 : (recentDrugs (get_approved_drugs env.db)).isEmpty = true
    · rw [if_pos h2, List.isEmpty_iff.mp h2]
      rfl
    · rw [if_neg h2]
      rw [tFetches_append, tFetches_append, tFetches_append, tFetches_map_fetchTargets,
        tFetches_map_rowEv, tFetches_kwBlocks]
      simp [tFetches, evTFetch]

theorem keepDrug_iff (d : Drug) :
    keepDrug d = true ↔ ∃ y, pyIntF d.first_approval = some y ∧ 2019 ≤ y := by
  unfold keepDrug
  rw [Bool.and_eq_true]
  constructor
  · rintro ⟨ht, hm⟩
    cases hy : pyIntF d.first_approval with
    | none => rw [hy] at hm; cases hm
    | some y => rw [hy] at hm; exact ⟨y, rfl, of_decide_eq_true hm⟩
  · rintro ⟨y, hy, h19⟩
    refine ⟨?_, ?_⟩
    · cases hfa : d.first_approval with
      | none => rw [hfa] at hy; exact absurd hy (by simp [pyIntF])
      | int n =>
        rw [hfa] at hy
        simp only [pyIntF, Option.some.injEq] at hy
        show (n != 0) = true
        rw [bne_iff_ne]
        omega
      | str s =>
        rw [hfa] at hy
        show (s != "") = true
        rw [bne_iff_ne]
        intro hs
        rw [hs] at hy
        have hnone : pyIntF (FieldVal.str "") = none := rfl
        rw [hnone] at hy
        cases hy
    · rw [hy]
      exact decide_eq_true h19

theorem keep_int {d : Drug} (hio : intOrNone d.first_approval = true)
    (hk : keepDrug d = true) :
    ∃ n : Int, d.first_approval = .int n ∧ cohortYear d = n ∧ 2019 ≤ n := by
  rcases (keepDrug_iff d).mp hk with ⟨y, hy, h19⟩
  cases hfa : d.first_approval with
  | none => rw [hfa] at hy; exact absurd hy (by simp [pyIntF])
  | str s => rw [hfa] at hio; cases hio
  | int n =>
    rw [hfa] at hy
    simp only [pyIntF, Option.some.injEq] at hy
    refine ⟨n, rfl, ?_, by omega⟩
    show (pyIntF d.first_approval).getD 0 = n
    rw [hfa]
    rfl

theorem apiLe_cohortOrdered {a b : Drug} (hka : keepDrug a = true) (hkb : keepDrug b = true)
    (hia : intOrNone a.first_approval = true) (hib : intOrNone b.first_approval = true)
    (hle : apiLe a b = true) : cohortOrdered a b := by
  rcases keep_int hia hka with ⟨m, hfa, hya, h19a⟩
  rcases keep_int hib hkb with ⟨n, hfb, hyb, h19b⟩
  unfold apiLe at hle
  rw [hfa, hfb] at hle
  unfold cohortOrdered
  rw [hya, hyb]
  by_cases he : FieldVal.int m = FieldVal.int n
  · rw [if_pos he] at hle
    right
    exact ⟨FieldVal.int.inj he, hle⟩
  · rw [if_neg he] at hle
    left
    have hmn : m ≤ n := of_decide_eq_true hle
    have hne : m ≠ n := fun h2 => he (by rw [h2])
    omega

/-! ## Claim C5: cohort selection, ordering and processing order -/

/-- C5: the retained cohort is exactly the approved records whose
first-approval field parses as an integer at least 2019 (records with
missing, null or non-numeric years are silently excluded, never errored);
the retained cohort preserves the upstream order (a sublist), and -
provided the upstream response honours the requested
(first_approval, pref_name) ordering and carries integer-or-null years, as
the ChEMBL column does - it is ordered by year ascending then preferred
name ascending; and this cohort order is exactly the order in which drugs
are processed (target resolutions) and in which their rows are written. -/
theorem C5_cohort_selection :
    (∀ (ds : List Drug) (d : Drug),
        d ∈ recentDrugs ds ↔ d ∈ ds ∧ ∃ y, pyIntF d.first_approval = some y ∧ 2019 ≤ y)
    ∧ (∀ ds : List Drug, (∀ d ∈ ds, intOrNone d.first_approval = true) →
        List.Pairwise (fun a b => apiLe a b = true) ds →
        List.Pairwise cohortOrdered (recentDrugs ds))
    ∧ (∀ ds : List Drug, (recentDrugs ds).Sublist ds)
    ∧ (∀ env : Env, tFetches (mainTrace env) = recentDrugs (get_approved_drugs env.db))
    ∧ (∀ env : Env,
        dtRows (mainTrace env)
          = ((recentDrugs (get_approved_drugs env.db)).filterMap
              (fun d => okRow d (env.resolve d))).map
              (fun r => (r.name, r.year, pyJoin ", " r.targets))) := by
  refine ⟨?_, ?_, ?_, tFetches_mainTrace, ?_⟩
  · intro ds d
    unfold recentDrugs
    rw [List.mem_filter, keepDrug_iff]
  · intro ds hint hs
    unfold recentDrugs
    refine (hs.filter keepDrug).imp_of_mem ?_
    intro a b ha hb hle
    have hma := List.mem_filter.mp ha
    have hmb := List.mem_filter.mp hb
    exact apiLe_cohortOrdered hma.2 hmb.2 (hint a hma.1) (hint b hmb.1) hle
  · intro ds
    exact List.filter_sublist ds
  · intro env
    rw [dtRows_mainTrace, targetPhase_fst]

/-- Witness for C5 at concrete inputs: a non-numeric year is silently
dropped, and a sorted integer-or-null upstream response yields the cohort
[2019-C, 2020-B, 2020-D] in year-then-name order. -/
theorem C5_cohort_selection_witness :
    (¬ drugStrYear ∈ recentDrugs [drugStrYear])
    ∧ List.Pairwise cohortOrdered (recentDrugs dsC5)
    ∧ recentDrugs dsC5
        = [⟨"D1", some "C", .int 2019⟩, ⟨"D2", some "B", .int 2020⟩,
           ⟨"D3", some "D", .int 2020⟩] := by
  refine ⟨?_, ?_, by decide⟩
  · intro hmem
    rcases (C5_cohort_selection.1 [drugStrYear] drugStrYear).mp hmem with ⟨_, y, hy, _⟩
    have hnone : pyIntF drugStrYear.first_approval = none := rfl
    rw [hnone] at hy
    cases hy
  · exact C5_cohort_selection.2.1 dsC5 (by decide) (by decide)

end Mcbdd

